import Mathlib

/-!
Shallow embedding of the name-registration state machine of libnmcrpc
(src/NameRegistration.cpp, src/NameRegistration.hpp), together with its
persistence layer and the RegistrationManager collection.

Remote JSON-RPC calls are modelled as explicit oracle parameters:
 * the ledger answer for "gettransaction <txid>" is a function
   `String → Option Int` (none models the RpcError thrown for an unknown
   transaction id, some n the "confirmations" field, a signed integer);
 * the "name_new" call is a function `String → Except RpcError (String × String)`
   from the name to the result pair (res[0] = txid, res[1] = rand);
 * the "name_firstupdate" call is a function from the argument tuple
   (name, rand, tx, value) to the resulting transaction id.

Methods that mutate the C++ object in place are embedded as functions
returning a pair: the call outcome (normal return or thrown exception)
and the object as it is after the call, including partial mutations
performed before a throw.
-/

namespace Nmcrpc

/-- The states of `NameRegistration::State` in NameRegistration.hpp. -/
inductive State where
  | NOT_STARTED : State
  | REGISTERED : State
  | ACTIVATED : State
deriving DecidableEq, Repr

/-- Numeric position of a state in the forward order
NOT_STARTED < REGISTERED < ACTIVATED. -/
def State.idx : State → Nat
  | .NOT_STARTED => 0
  | .REGISTERED => 1
  | .ACTIVATED => 2

/-- The data members of class `NameRegistration` (the borrowed JsonRpc
handle is left out: remote calls are explicit oracle parameters). -/
structure NameRegistration where
  state : State
  name : String
  value : String
  rand : String
  tx : String
  txActivation : String
deriving DecidableEq, Repr

/-- A freshly constructed `NameRegistration (JsonRpc& r)`: state is
NOT_STARTED and every std::string member is default-initialised empty. -/
def freshNR : NameRegistration :=
  { state := .NOT_STARTED, name := "", value := "", rand := "", tx := "", txActivation := "" }

/-- The observable part of a `NamecoinInterface::Name` lookup snapshot that
`registerName` consults: `getName ()`, `exists ()` and `isExpired ()`. -/
structure NameView where
  name : String
  nameExists : Bool
  isExpired : Bool
deriving DecidableEq, Repr

/-- An error thrown by the JSON-RPC layer (JsonRpc::RpcError and friends),
propagated verbatim by this module. -/
structure RpcError where
  msg : String
deriving DecidableEq, Repr

/-- The errors this module itself can signal.  `invalidState` stands for the
std::runtime_error thrown on a state-precondition violation (and for the
"Wrong state for saving" error of operator<<), `nameAlreadyReserved` for
`NameRegistration::NameAlreadyReserved` carrying the name,
`notYetEligible` for the "Can't yet activate, please wait longer" error,
`format` for the "Wrong JSON object found" / "Invalid state found" decode
errors, and `rpc` wraps an error propagated from the remote layer. -/
inductive Err where
  | invalidState : Err
  | nameAlreadyReserved (name : String) : Err
  | notYetEligible : Err
  | format : Err
  | rpc (e : RpcError) : Err
deriving DecidableEq, Repr

/-- `NameRegistration::FIRSTUPDATE_DELAY = 12`. -/
def FIRSTUPDATE_DELAY : Nat := 12

/-- `NameRegistration::getNumberOfConfirmations`: reads the remote
gettransaction result's "confirmations" field with `asInt ()` (a signed
32-bit value) and returns it through the `unsigned` return type, i.e.
reduced modulo 2^32.  An unknown transaction id raises an RpcError. -/
def getNumberOfConfirmations (ledger : String → Option Int) (txid : String) :
    Except RpcError Nat :=
  match ledger txid with
  | none => .error { msg := "transaction not found" }
  | some n => .ok (n % 4294967296).toNat

/-- `NameRegistration::registerName`: state and name-availability checks,
then `name = nm.getName ()`, then the "name_new" remote call, then
`rand = res[1]`, `tx = res[0]`, `value = ""` and, as the last action,
`state = REGISTERED`.  Note that the `name` member is assigned before the
remote call is issued, so it stays overwritten if the call throws. -/
def registerName (p : NameRegistration) (nm : NameView)
    (rpcNameNew : String → Except RpcError (String × String)) :
    Except Err Unit × NameRegistration :=
  if p.state ≠ .NOT_STARTED then (.error .invalidState, p)
  else if nm.nameExists && !nm.isExpired then (.error (.nameAlreadyReserved nm.name), p)
  else
    let p1 := { p with name := nm.name }
    match rpcNameNew nm.name with
    | .error e => (.error (.rpc e), p1)
    | .ok res =>
        (.ok (), { p1 with rand := res.2, tx := res.1, value := "", state := .REGISTERED })

/-- `NameRegistration::setValue`: only allowed in REGISTERED state,
overwrites the `value` member. -/
def setValue (p : NameRegistration) (v : String) : Except Err Unit × NameRegistration :=
  if p.state ≠ .REGISTERED then (.error .invalidState, p)
  else (.ok (), { p with value := v })

/-- `NameRegistration::canActivate`: false without any remote call when the
state is not REGISTERED, otherwise compares the confirmation count of the
name_new transaction against FIRSTUPDATE_DELAY.  A const method: it never
mutates the object. -/
def canActivate (p : NameRegistration) (ledger : String → Option Int) :
    Except RpcError Bool :=
  if p.state ≠ .REGISTERED then .ok false
  else
    match getNumberOfConfirmations ledger p.tx with
    | .error e => .error e
    | .ok c => .ok (decide (c ≥ FIRSTUPDATE_DELAY))

/-- `NameRegistration::activate`: state check, `canActivate ()` check, then
the "name_firstupdate" remote call with arguments (name, rand, tx, value);
only after it returns are `txActivation` and `state = ACTIVATED` assigned. -/
def activate (p : NameRegistration) (ledger : String → Option Int)
    (rpcFirstupdate : String × String × String × String → Except RpcError String) :
    Except Err Unit × NameRegistration :=
  if p.state ≠ .REGISTERED then (.error .invalidState, p)
  else
    match canActivate p ledger with
    | .error e => (.error (.rpc e), p)
    | .ok false => (.error .notYetEligible, p)
    | .ok true =>
        match rpcFirstupdate (p.name, p.rand, p.tx, p.value) with
        | .error e => (.error (.rpc e), p)
        | .ok t => (.ok (), { p with txActivation := t, state := .ACTIVATED })

/-- `NameRegistration::isFinished`: false when not ACTIVATED, otherwise true
iff the name_firstupdate transaction has at least one confirmation. -/
def isFinished (p : NameRegistration) (ledger : String → Option Int) :
    Except RpcError Bool :=
  if p.state ≠ .ACTIVATED then .ok false
  else
    match getNumberOfConfirmations ledger p.txActivation with
    | .error e => .error e
    | .ok c => .ok (decide (c > 0))

/-- The JSON object written by `operator<< (std::ostream&, const
NameRegistration&)` and read back by `operator>>`, flattened to a record.
A field that is absent from the actual JSON behaves, under jsoncpp's
`operator[]` plus `asString ()` / `asInt ()`, exactly like the default
value recorded here (empty string respectively 0). -/
structure RegBlob where
  type : String := ""
  version : Int := 0
  name : String := ""
  stateTag : String := ""
  value : String := ""
  rand : String := ""
  tx : String := ""
  txActivation : String := ""
deriving DecidableEq, Repr

/-- `operator<<` for NameRegistration: writes type, version 1 and name, then
dispatches on the state; REGISTERED stores value/rand/tx, ACTIVATED stores
txActivation, and any other state throws. -/
def encodeNameRegistration (p : NameRegistration) : Except Err RegBlob :=
  match p.state with
  | .REGISTERED =>
      .ok { type := "NameRegistration", version := 1, name := p.name,
            stateTag := "registered", value := p.value, rand := p.rand, tx := p.tx }
  | .ACTIVATED =>
      .ok { type := "NameRegistration", version := 1, name := p.name,
            stateTag := "activated", txActivation := p.txActivation }
  | .NOT_STARTED => .error .invalidState

/-- `operator>>` for NameRegistration: validates the type tag and version,
then assigns `obj.name`, then dispatches on the "state" discriminator;
an unknown discriminator throws after `obj.name` was already assigned.
The returned pair carries the outcome and the object after the call. -/
def decodeNameRegistration (b : RegBlob) (p : NameRegistration) :
    Except Err Unit × NameRegistration :=
  if b.type = "NameRegistration" ∧ b.version = 1 then
    let p1 := { p with name := b.name }
    if b.stateTag = "registered" then
      (.ok (), { p1 with state := .REGISTERED, value := b.value, rand := b.rand, tx := b.tx })
    else if b.stateTag = "activated" then
      (.ok (), { p1 with state := .ACTIVATED, txActivation := b.txActivation })
    else (.error .format, p1)
  else (.error .format, p)

/-- The entry list of class `RegistrationManager` (again without the
borrowed JsonRpc handle); the C++ list of owned pointers becomes a list of
values, in the same insertion order. -/
structure RegistrationManager where
  names : List NameRegistration
deriving DecidableEq, Repr

/-- Loop body of `RegistrationManager::cleanUp` in NameRegistration.cpp:
walk the list and erase every entry whose `isFinished ()` is true, keeping
the others in order.  An RpcError raised by `isFinished` propagates.  The
implementation computes no count of the erased entries and has a `void`
return type (the header, and the nmreg utility calling it, expect
`unsigned` with the number purged). -/
def cleanUpGo (ledger : String → Option Int) :
    List NameRegistration → Except RpcError (List NameRegistration)
  | [] => .ok []
  | p :: rest =>
      match isFinished p ledger with
      | .error e => .error e
      | .ok true => cleanUpGo ledger rest
      | .ok false =>
          match cleanUpGo ledger rest with
          | .error e => .error e
          | .ok l => .ok (p :: l)

/-- `RegistrationManager::cleanUp` as defined in NameRegistration.cpp:
purges finished entries and returns nothing beyond the updated list. -/
def cleanUp (m : RegistrationManager) (ledger : String → Option Int) :
    Except RpcError RegistrationManager :=
  match cleanUpGo ledger m.names with
  | .error e => .error e
  | .ok l => .ok { names := l }

/-- The JSON object written by `operator<<` for RegistrationManager: a type
tag, version 1 and an "elements" array whose members are the independently
serialized entries. -/
structure MgrBlob where
  type : String := ""
  version : Int := 0
  elements : List RegBlob := []
deriving DecidableEq, Repr

/-- Serialization of the entry list of `operator<<` for RegistrationManager:
each entry is streamed on its own (throwing for a NOT_STARTED entry) and
appended to the "elements" array in order. -/
def encodeElements : List NameRegistration → Except Err (List RegBlob)
  | [] => .ok []
  | p :: rest =>
      match encodeNameRegistration p with
      | .error e => .error e
      | .ok b =>
          match encodeElements rest with
          | .error e => .error e
          | .ok bs => .ok (b :: bs)

/-- `operator<< (std::ostream&, const RegistrationManager&)`. -/
def encodeRegistrationManager (m : RegistrationManager) : Except Err MgrBlob :=
  match encodeElements m.names with
  | .error e => .error e
  | .ok bs => .ok { type := "RegistrationManager", version := 1, elements := bs }

/-- The element loop of `operator>>` for RegistrationManager: every element
is decoded into a freshly constructed NameRegistration. -/
def decodeElements : List RegBlob → Except Err (List NameRegistration)
  | [] => .ok []
  | b :: rest =>
      match decodeNameRegistration b freshNR with
      | (.error e, _) => .error e
      | (.ok _, q) =>
          match decodeElements rest with
          | .error e => .error e
          | .ok qs => .ok (q :: qs)

/-- `operator>> (std::istream&, RegistrationManager&)`: validates the type
tag and version, clears the current entry list of the target and fills it
with the decoded elements — a destructive load that ignores whatever the
target held before. -/
def decodeRegistrationManager (b : MgrBlob) (m : RegistrationManager) :
    Except Err RegistrationManager :=
  if b.type = "RegistrationManager" ∧ b.version = 1 then
    match decodeElements b.elements with
    | .error e => .error e
    | .ok qs => .ok { names := qs }
  else .error .format

/-- Observable equality of two NameRegistration objects through the public
interface: same name and state, and agreement on the data the current
state exposes (value/rand/tx drive activate and serialization only in
REGISTERED state, txActivation only matters in ACTIVATED state). -/
def obsEquiv (q p : NameRegistration) : Prop :=
  q.name = p.name ∧ q.state = p.state ∧
  (p.state = .REGISTERED → q.value = p.value ∧ q.rand = p.rand ∧ q.tx = p.tx) ∧
  (p.state = .ACTIVATED → q.txActivation = p.txActivation)

/-- One externally triggered operation on a single NameRegistration object,
together with the oracle answers of the remote calls it may issue. -/
inductive Op where
  | register (nm : NameView) (rpcNameNew : String → Except RpcError (String × String)) : Op
  | setVal (v : String) : Op
  | doActivate (ledger : String → Option Int)
      (rpcFirstupdate : String × String × String × String → Except RpcError String) : Op
  | load (b : RegBlob) : Op

/-- Whether an operation is a stream-decode. -/
def Op.isLoad : Op → Bool
  | .load _ => true
  | _ => false

/-- Whether an operation is a registerName call. -/
def Op.isRegister : Op → Bool
  | .register _ _ => true
  | _ => false

/-- Execute one operation against an object, returning the outcome and the
object afterwards. -/
def step (p : NameRegistration) : Op → Except Err Unit × NameRegistration
  | .register nm f => registerName p nm f
  | .setVal v => setValue p v
  | .doActivate ld g => activate p ld g
  | .load b => decodeNameRegistration b p

/-- Run a sequence of operations, keeping only the final object. -/
def run (p : NameRegistration) : List Op → NameRegistration
  | [] => p
  | op :: rest => run (step p op).2 rest

/-- An operation whose successful remote answers consist of nonempty
identifier strings, as namecoind's name_new and name_firstupdate always
produce (txids and rand values are nonempty hex strings). -/
def GoodOp : Op → Prop
  | .register _ f => ∀ s t r, f s = .ok (t, r) → t ≠ "" ∧ r ≠ ""
  | .setVal _ => True
  | .doActivate _ g => ∀ a t, g a = .ok t → t ≠ ""
  | .load _ => True

/-! ### Theorems about a single registration process -/

/-- C1: `registerName` fails with InvalidStateError outside NOT_STARTED,
fails with NameAlreadyReservedError carrying the name when the lookup
snapshot shows an unexpired existing name, and otherwise issues the
name_new call, stores the returned (transactionId, secret) pair into
tx/rand, sets the pending value to the empty string and transitions to
REGISTERED exactly when the call returned; a throwing call leaves the
state untouched (only the name member was already overwritten). -/
theorem C1_registerName_spec (p : NameRegistration) (nm : NameView)
    (f : String → Except RpcError (String × String)) :
    (p.state ≠ .NOT_STARTED → registerName p nm f = (.error .invalidState, p)) ∧
    (p.state = .NOT_STARTED → nm.nameExists = true → nm.isExpired = false →
      registerName p nm f = (.error (.nameAlreadyReserved nm.name), p)) ∧
    (∀ t r, p.state = .NOT_STARTED → (nm.nameExists = false ∨ nm.isExpired = true) →
      f nm.name = .ok (t, r) →
      registerName p nm f =
        (.ok (), { state := .REGISTERED, name := nm.name, value := "",
                   rand := r, tx := t, txActivation := p.txActivation })) ∧
    (∀ e, p.state = .NOT_STARTED → (nm.nameExists = false ∨ nm.isExpired = true) →
      f nm.name = .error e →
      registerName p nm f = (.error (.rpc e), { p with name := nm.name })) := by
  refine ⟨?_, ?_, ?_, ?_⟩
  · intro h
    simp [registerName, h]
  · intro h h1 h2
    simp [registerName, h, h1, h2]
  · intro t r h h1 h2
    have hcond : (nm.nameExists && !nm.isExpired) = false := by
      rcases h1 with h1 | h1 <;> simp [h1]
    simp [registerName, h, hcond, h2]
  · intro e h h1 h2
    have hcond : (nm.nameExists && !nm.isExpired) = false := by
      rcases h1 with h1 | h1 <;> simp [h1]
    simp [registerName, h, hcond, h2]

/-- Witness for C1: registering "d/test" on a fresh process with a reserve
answer of txid "t1" and secret "r1" yields a REGISTERED process holding
exactly that data. -/
theorem C1_registerName_witness :
    registerName freshNR ⟨"d/test", false, false⟩ (fun _ => .ok ("t1", "r1")) =
      (.ok (), { state := .REGISTERED, name := "d/test", value := "",
                 rand := "r1", tx := "t1", txActivation := "" }) :=
  (C1_registerName_spec freshNR ⟨"d/test", false, false⟩ (fun _ => .ok ("t1", "r1"))).2.2.1
    "t1" "r1" rfl (Or.inl rfl) rfl

/-- Helper: a successful `activate` presupposes REGISTERED state and a
positive `canActivate` answer. -/
theorem activate_ok_inversion (p : NameRegistration) (ledger : String → Option Int)
    (g : String × String × String × String → Except RpcError String)
    (h : (activate p ledger g).1 = .ok ()) :
    p.state = .REGISTERED ∧ canActivate p ledger = .ok true := by
  by_cases hs : p.state = .REGISTERED
  · refine ⟨hs, ?_⟩
    rcases hca : canActivate p ledger with e | b
    · simp [activate, hs, hca] at h
    · cases b
      · simp [activate, hs, hca] at h
      · rfl
  · simp [activate, hs] at h

/-- Helper: `registerName` either returns normally or leaves the state
member untouched. -/
theorem registerName_ok_or_state_fixed (p : NameRegistration) (nm : NameView)
    (f : String → Except RpcError (String × String)) :
    (registerName p nm f).1 = .ok () ∨ (registerName p nm f).2.state = p.state := by
  unfold registerName
  by_cases hs : p.state = .NOT_STARTED
  · by_cases hcond : (nm.nameExists && !nm.isExpired) = true
    · simp [hs, hcond]
    · rcases hf : f nm.name with e | res
      · simp [hs, hcond, hf]
      · simp [hs, hcond, hf]
  · simp [hs]

/-- Helper: a non-register, non-load operation cannot move a process out of
the NOT_STARTED state. -/
theorem step_keeps_not_started (p : NameRegistration) (op : Op)
    (hl : op.isLoad = false) (hr : op.isRegister = false)
    (hp : p.state = .NOT_STARTED) : (step p op).2.state = .NOT_STARTED := by
  cases op with
  | register nm f => simp [Op.isRegister] at hr
  | setVal v => simp [step, setValue, hp]
  | doActivate ld g => simp [step, activate, hp]
  | load b => simp [Op.isLoad] at hl

/-- Helper: a load-free run that ends outside NOT_STARTED either started
there or contains a successful registerName call. -/
theorem run_not_started_inversion (ops : List Op) :
    ∀ p : NameRegistration, (∀ op ∈ ops, op.isLoad = false) →
    (run p ops).state ≠ .NOT_STARTED →
    p.state ≠ .NOT_STARTED ∨
      ∃ l1 op l2, ops = l1 ++ op :: l2 ∧ op.isRegister = true ∧
        (step (run p l1) op).1 = .ok () := by
  induction ops with
  | nil =>
      intro p _ h
      exact .inl h
  | cons op rest ih =>
      intro p hops h
      have hop : op.isLoad = false := hops op (by simp)
      have hrest : ∀ o ∈ rest, o.isLoad = false := fun o ho => hops o (by simp [ho])
      have hrun : run p (op :: rest) = run (step p op).2 rest := rfl
      rw [hrun] at h
      rcases ih (step p op).2 hrest h with h' | ⟨l1, o, l2, heq, hreg, hok⟩
      · by_cases hp : p.state = .NOT_STARTED
        · cases hro : op.isRegister with
          | false => exact absurd (step_keeps_not_started p op hop hro hp) h'
          | true =>
              cases op with
              | register nm f =>
                  rcases registerName_ok_or_state_fixed p nm f with hsucc | hfix
                  · exact .inr ⟨[], .register nm f, rest, rfl, rfl, hsucc⟩
                  · have : (step p (.register nm f)).2.state = .NOT_STARTED := by
                      simpa [step, hp] using hfix
                    exact absurd this h'
              | setVal v => simp [Op.isRegister] at hro
              | doActivate ld g => simp [Op.isRegister] at hro
              | load b => simp [Op.isRegister] at hro
        · exact .inl hp
      · refine .inr ⟨op :: l1, o, l2, by simp [heq], hreg, ?_⟩
        have : run p (op :: l1) = run (step p op).2 l1 := rfl
        rw [this]
        exact hok

/-- C2: `activate` fails with InvalidStateError outside REGISTERED, fails
with NotYetEligibleError when REGISTERED but `canActivate` answers false,
and otherwise issues the name_firstupdate call with (name, rand, tx,
value), stores the returned transaction id and moves to ACTIVATED exactly
when the call returned; moreover a successful activate on a load-free run
from a fresh object requires a successful earlier registerName and a
positive `canActivate` at call time. -/
theorem C2_activate_spec :
    (∀ (p : NameRegistration) (ledger : String → Option Int)
       (g : String × String × String × String → Except RpcError String),
      (p.state ≠ .REGISTERED → activate p ledger g = (.error .invalidState, p)) ∧
      (p.state = .REGISTERED → canActivate p ledger = .ok false →
        activate p ledger g = (.error .notYetEligible, p)) ∧
      (∀ t, p.state = .REGISTERED → canActivate p ledger = .ok true →
        g (p.name, p.rand, p.tx, p.value) = .ok t →
        activate p ledger g = (.ok (), { p with txActivation := t, state := .ACTIVATED })) ∧
      ((activate p ledger g).1 = .ok () →
        p.state = .REGISTERED ∧ canActivate p ledger = .ok true)) ∧
    (∀ (ops : List Op) (ledger : String → Option Int)
       (g : String × String × String × String → Except RpcError String),
      (∀ op ∈ ops, op.isLoad = false) →
      (activate (run freshNR ops) ledger g).1 = .ok () →
      canActivate (run freshNR ops) ledger = .ok true ∧
        ∃ l1 op l2, ops = l1 ++ op :: l2 ∧ op.isRegister = true ∧
          (step (run freshNR l1) op).1 = .ok ()) := by
  constructor
  · intro p ledger g
    refine ⟨?_, ?_, ?_, activate_ok_inversion p ledger g⟩
    · intro h
      simp [activate, h]
    · intro h hca
      simp [activate, h, hca]
    · intro t h hca hg
      simp [activate, h, hca, hg]
  · intro ops ledger g hops h
    obtain ⟨hreg, hca⟩ := activate_ok_inversion _ ledger g h
    have hns : (run freshNR ops).state ≠ .NOT_STARTED := by
      rw [hreg]; intro hcontra; cases hcontra
    rcases run_not_started_inversion ops freshNR hops hns with habs | hdone
    · exact absurd rfl habs
    · exact ⟨hca, hdone⟩

/-- A process as it stands right after a successful reservation of "d/x"
with txid "t1" and secret "r1". -/
def pREG : NameRegistration :=
  { state := .REGISTERED, name := "d/x", value := "v", rand := "r1", tx := "t1",
    txActivation := "" }

/-- A ledger snapshot in which the reservation transaction "t1" has exactly
12 confirmations. -/
def ledger12 : String → Option Int := fun s => if s = "t1" then some 12 else none

/-- Witness for C2: activating `pREG` once "t1" has 12 confirmations, with
the remote call answering txid "ta", yields an ACTIVATED process. -/
theorem C2_activate_witness :
    activate pREG ledger12 (fun _ => .ok "ta") =
      (.ok (), { pREG with txActivation := "ta", state := .ACTIVATED }) :=
  (C2_activate_spec.1 pREG ledger12 (fun _ => .ok "ta")).2.2.1 "ta" rfl rfl rfl

/-- A ledger snapshot reporting the reservation transaction "t1" as
conflicted: the gettransaction answer carries confirmations = -1. -/
def ledgerNeg : String → Option Int := fun s => if s = "t1" then some (-1) else none

/-- C3 counterexample: with the ledger answering -1 for the reservation
transaction of the REGISTERED process `pREG`, `canActivate` answers true
even though the reported confirmation count -1 is far below 12 (the int
value is converted to unsigned and wraps to 4294967295), so the claimed
equivalence fails at this input. -/
theorem C3_counterexample :
    ledgerNeg pREG.tx = some (-1) ∧
    canActivate pREG ledgerNeg = .ok true ∧
    ¬((12 : Int) ≤ -1) := by
  refine ⟨rfl, rfl, by decide⟩

/-- C3 amended: for a ledger answer in the value range of a nonnegative C
int, `canActivate` answers true exactly when the state is REGISTERED and
the reported confirmation count is at least 12, and answers false (an
ordinary return, not an error) in every other case; the method is const,
so for a fixed ledger answer the result is a fixed value. -/
theorem C3_canActivate_spec (p : NameRegistration) (ledger : String → Option Int)
    (c : Int) (hc : ledger p.tx = some c) (h0 : 0 ≤ c) (h31 : c < 2147483648) :
    (canActivate p ledger = .ok true ↔ (p.state = .REGISTERED ∧ 12 ≤ c)) ∧
    (¬(p.state = .REGISTERED ∧ 12 ≤ c) → canActivate p ledger = .ok false) := by
  have hmod : c % 4294967296 = c := by omega
  by_cases hs : p.state = .REGISTERED
  · have hval : canActivate p ledger = .ok (decide ((c % 4294967296).toNat ≥ FIRSTUPDATE_DELAY)) := by
      simp [canActivate, hs, getNumberOfConfirmations, hc]
    rw [hmod] at hval
    have hiff : (FIRSTUPDATE_DELAY ≤ c.toNat) ↔ (12 ≤ c) := by
      unfold FIRSTUPDATE_DELAY
      omega
    constructor
    · constructor
      · intro h
        rw [hval] at h
        refine ⟨hs, ?_⟩
        have := Except.ok.inj h
        exact hiff.mp (of_decide_eq_true this)
      · rintro ⟨-, h12⟩
        rw [hval, decide_eq_true (hiff.mpr h12)]
    · intro hno
      have : ¬(12 ≤ c) := fun h12 => hno ⟨hs, h12⟩
      rw [hval, decide_eq_false (fun hge => this (hiff.mp hge))]
  · have hval : canActivate p ledger = .ok false := by simp [canActivate, hs]
    constructor
    · rw [hval]
      constructor
      · intro h
        exact absurd (Except.ok.inj h) (by simp)
      · rintro ⟨h, -⟩
        exact absurd h hs
    · intro _
      exact hval

/-- Witness for C3 amended: at the 12-confirmation ledger, `canActivate` on
`pREG` answers true and the equivalence instantiates concretely. -/
theorem C3_canActivate_witness :
    (canActivate pREG ledger12 = .ok true ↔ (pREG.state = .REGISTERED ∧ (12 : Int) ≤ 12)) ∧
    (¬(pREG.state = .REGISTERED ∧ (12 : Int) ≤ 12) → canActivate pREG ledger12 = .ok false) :=
  C3_canActivate_spec pREG ledger12 12 rfl (by decide) (by decide)

/-- C4 counterexample: on a fresh process, a registerName call whose remote
name_new call throws leaves the object different from what it was before
the call — the `name` member was already overwritten with the requested
name before the call was issued. -/
theorem C4_counterexample :
    (registerName freshNR ⟨"d/test", false, false⟩
        (fun _ => .error { msg := "connection reset" })).2 ≠ freshNR ∧
    (registerName freshNR ⟨"d/test", false, false⟩
        (fun _ => .error { msg := "connection reset" })).2.name = "d/test" ∧
    freshNR.name = "" := by
  refine ⟨?_, rfl, rfl⟩
  intro h
  have : "d/test" = "" := congrArg NameRegistration.name h
  simp at this

/-- C4 amended: whenever `registerName` fails (in particular when its
remote call throws), the state, value, rand, tx and txActivation members
are all unchanged — only the name member may have been overwritten — and
whenever `activate` fails the object is entirely unchanged; both
operations therefore remain retryable. -/
theorem C4_failure_preserves :
    (∀ (p : NameRegistration) (nm : NameView)
       (f : String → Except RpcError (String × String)) (e : Err),
      (registerName p nm f).1 = .error e →
      (registerName p nm f).2.state = p.state ∧
      (registerName p nm f).2.value = p.value ∧
      (registerName p nm f).2.rand = p.rand ∧
      (registerName p nm f).2.tx = p.tx ∧
      (registerName p nm f).2.txActivation = p.txActivation) ∧
    (∀ (p : NameRegistration) (ledger : String → Option Int)
       (g : String × String × String × String → Except RpcError String) (e : Err),
      (activate p ledger g).1 = .error e → (activate p ledger g).2 = p) := by
  constructor
  · intro p nm f e h
    unfold registerName at h ⊢
    by_cases hs : p.state = .NOT_STARTED
    · by_cases hcond : (nm.nameExists && !nm.isExpired) = true
      · simp [hs, hcond]
      · rcases hf : f nm.name with er | res
        · simp [hs, hcond, hf]
        · simp [hs, hcond, hf] at h
    · simp [hs]
  · intro p ledger g e h
    unfold activate at h ⊢
    by_cases hs : p.state = .REGISTERED
    · rcases hca : canActivate p ledger with er | b
      · simp [hs, hca]
      · cases b
        · simp [hs, hca]
        · rcases hg : g (p.name, p.rand, p.tx, p.value) with er | t
          · simp [hs, hca, hg]
          · simp [hs, hca, hg] at h
    · simp [hs]

/-- Witness for C4 amended: the failing registerName of the counterexample
keeps state, value, rand, tx and txActivation, and a failing activate on a
fresh object keeps the object whole. -/
theorem C4_failure_preserves_witness :
    ((registerName freshNR ⟨"d/test", false, false⟩
        (fun _ => .error { msg := "connection reset" })).2.state = freshNR.state ∧
     (registerName freshNR ⟨"d/test", false, false⟩
        (fun _ => .error { msg := "connection reset" })).2.value = freshNR.value ∧
     (registerName freshNR ⟨"d/test", false, false⟩
        (fun _ => .error { msg := "connection reset" })).2.rand = freshNR.rand ∧
     (registerName freshNR ⟨"d/test", false, false⟩
        (fun _ => .error { msg := "connection reset" })).2.tx = freshNR.tx ∧
     (registerName freshNR ⟨"d/test", false, false⟩
        (fun _ => .error { msg := "connection reset" })).2.txActivation = freshNR.txActivation) ∧
    (activate freshNR ledger12 (fun _ => .ok "ta")).2 = freshNR :=
  ⟨C4_failure_preserves.1 freshNR ⟨"d/test", false, false⟩
      (fun _ => .error { msg := "connection reset" }) (.rpc { msg := "connection reset" }) rfl,
   C4_failure_preserves.2 freshNR ledger12 (fun _ => .ok "ta") .invalidState rfl⟩

/-- A process as it stands right after a successful activation, waiting for
the name_firstupdate transaction "t1" to confirm. -/
def pACT : NameRegistration :=
  { state := .ACTIVATED, name := "d/x", value := "v", rand := "r1", tx := "t0",
    txActivation := "t1" }

/-- C10: `getNumberOfConfirmations` reads the signed confirmations field
through an unsigned return type, so a negative daemon answer (within the
range of a 32-bit int) wraps modulo 2^32 to at least 2^31; consequently a
conflicted transaction reported with negative confirmations makes
`canActivate` answer true for a REGISTERED process and `isFinished` answer
true for an ACTIVATED process, instead of being treated as unconfirmed. -/
theorem C10_negative_confirmations_wrap (ledger : String → Option Int) (c : Int)
    (p : NameRegistration) (hlo : -2147483648 ≤ c) (hneg : c < 0) :
    (∀ t, ledger t = some c →
      getNumberOfConfirmations ledger t = .ok (c + 4294967296).toNat ∧
      2147483648 ≤ (c + 4294967296).toNat) ∧
    (p.state = .REGISTERED → ledger p.tx = some c →
      canActivate p ledger = .ok true) ∧
    (p.state = .ACTIVATED → ledger p.txActivation = some c →
      isFinished p ledger = .ok true) := by
  have hmod : c % 4294967296 = c + 4294967296 := by omega
  have hbig : 2147483648 ≤ (c + 4294967296).toNat := by omega
  refine ⟨?_, ?_, ?_⟩
  · intro t ht
    refine ⟨?_, hbig⟩
    simp [getNumberOfConfirmations, ht, hmod]
  · intro hs hc
    have h12 : decide ((c % 4294967296).toNat ≥ FIRSTUPDATE_DELAY) = true := by
      rw [hmod]
      unfold FIRSTUPDATE_DELAY
      exact decide_eq_true (by omega)
    simp [canActivate, hs, getNumberOfConfirmations, hc, h12]
  · intro hs hc
    have hpos : decide ((c % 4294967296).toNat > 0) = true := by
      rw [hmod]
      exact decide_eq_true (by omega)
    simp [isFinished, hs, getNumberOfConfirmations, hc, hpos]
    omega

/-- Witness for C10: with confirmations = -1 reported for "t1", the count
wraps to 4294967295, `canActivate` on the REGISTERED `pREG` answers true
and `isFinished` on the ACTIVATED `pACT` answers true. -/
theorem C10_negative_confirmations_witness :
    getNumberOfConfirmations ledgerNeg "t1" = .ok 4294967295 ∧
    canActivate pREG ledgerNeg = .ok true ∧
    isFinished pACT ledgerNeg = .ok true :=
  ⟨((C10_negative_confirmations_wrap ledgerNeg (-1) pREG (by decide) (by decide)).1
      "t1" rfl).1,
   (C10_negative_confirmations_wrap ledgerNeg (-1) pREG (by decide) (by decide)).2.1 rfl rfl,
   (C10_negative_confirmations_wrap ledgerNeg (-1) pACT (by decide) (by decide)).2.2 rfl rfl⟩

/-! ### Reachability invariants -/

/-- The per-state data invariant of a registration process: the reservation
data is present from REGISTERED on, the activation txid only in ACTIVATED,
and a NOT_STARTED object carries no data beyond a possibly assigned name. -/
def Inv (p : NameRegistration) : Prop :=
  (p.state = .NOT_STARTED →
    p.value = "" ∧ p.rand = "" ∧ p.tx = "" ∧ p.txActivation = "") ∧
  (p.state = .REGISTERED → p.rand ≠ "" ∧ p.tx ≠ "" ∧ p.txActivation = "") ∧
  (p.state = .ACTIVATED → p.rand ≠ "" ∧ p.tx ≠ "" ∧ p.txActivation ≠ "")

/-- Helper: a single load-free operation with nonempty remote answers
preserves the data invariant, never decreases the state, and changes the
value member only from REGISTERED state. -/
theorem step_inv (p : NameRegistration) (op : Op) (hp : Inv p) (hg : GoodOp op)
    (hl : op.isLoad = false) :
    Inv (step p op).2 ∧ p.state.idx ≤ (step p op).2.state.idx ∧
      ((step p op).2.value ≠ p.value → p.state = .REGISTERED) := by
  obtain ⟨hns, hreg, hact⟩ := hp
  cases op with
  | register nm f =>
      by_cases hs : p.state = .NOT_STARTED
      · by_cases hcond : (nm.nameExists && !nm.isExpired) = true
        · have hstep : (step p (Op.register nm f)).2 = p := by
            simp [step, registerName, hs, hcond]
          rw [hstep]
          exact ⟨⟨hns, hreg, hact⟩, le_refl _, fun h => absurd rfl h⟩
        · obtain ⟨hv, hr, htx, hta⟩ := hns hs
          rcases hf : f nm.name with e | res
          · have hstep : (step p (Op.register nm f)).2 = { p with name := nm.name } := by
              simp [step, registerName, hs, hcond, hf]
            rw [hstep]
            exact ⟨⟨fun _ => ⟨hv, hr, htx, hta⟩,
                    fun h => hreg h, fun h => hact h⟩,
                   le_refl _, fun h => absurd rfl h⟩
          · have hgood := hg nm.name res.1 res.2 hf
            have hstep : (step p (Op.register nm f)).2 =
                { state := .REGISTERED, name := nm.name, value := "",
                  rand := res.2, tx := res.1, txActivation := p.txActivation } := by
              simp [step, registerName, hs, hcond, hf]
            rw [hstep]
            have hidx : p.state.idx ≤ State.REGISTERED.idx := by
              rw [hs]; exact Nat.zero_le _
            exact ⟨⟨fun h => (nomatch h), fun _ => ⟨hgood.2, hgood.1, hta⟩,
                    fun h => (nomatch h)⟩, hidx, fun h => absurd hv.symm h⟩
      · have hstep : (step p (Op.register nm f)).2 = p := by
          simp [step, registerName, hs]
        rw [hstep]
        exact ⟨⟨hns, hreg, hact⟩, le_refl _, fun h => absurd rfl h⟩
  | setVal v =>
      by_cases hs : p.state = .REGISTERED
      · obtain ⟨hr, htx, hta⟩ := hreg hs
        have hstep : (step p (Op.setVal v)).2 = { p with value := v } := by
          simp [step, setValue, hs]
        rw [hstep]
        exact ⟨⟨fun h => absurd (hs ▸ h) (by simp),
                fun _ => ⟨hr, htx, hta⟩, fun h => hact h⟩,
               le_refl _, fun _ => hs⟩
      · have hstep : (step p (Op.setVal v)).2 = p := by
          simp [step, setValue, hs]
        rw [hstep]
        exact ⟨⟨hns, hreg, hact⟩, le_refl _, fun h => absurd rfl h⟩
  | doActivate ld g =>
      by_cases hs : p.state = .REGISTERED
      · obtain ⟨hr, htx, hta⟩ := hreg hs
        rcases hca : canActivate p ld with e | b
        · have hstep : (step p (Op.doActivate ld g)).2 = p := by
            simp [step, activate, hs, hca]
          rw [hstep]
          exact ⟨⟨hns, hreg, hact⟩, le_refl _, fun h => absurd rfl h⟩
        · cases b
          · have hstep : (step p (Op.doActivate ld g)).2 = p := by
              simp [step, activate, hs, hca]
            rw [hstep]
            exact ⟨⟨hns, hreg, hact⟩, le_refl _, fun h => absurd rfl h⟩
          · rcases hgr : g (p.name, p.rand, p.tx, p.value) with e | t
            · have hstep : (step p (Op.doActivate ld g)).2 = p := by
                simp [step, activate, hs, hca, hgr]
              rw [hstep]
              exact ⟨⟨hns, hreg, hact⟩, le_refl _, fun h => absurd rfl h⟩
            · have hgood := hg (p.name, p.rand, p.tx, p.value) t hgr
              have hstep : (step p (Op.doActivate ld g)).2 =
                  { p with txActivation := t, state := .ACTIVATED } := by
                simp [step, activate, hs, hca, hgr]
              rw [hstep]
              have hidx : p.state.idx ≤ State.ACTIVATED.idx := by
                rw [hs]; exact Nat.le_succ _
              exact ⟨⟨fun h => (nomatch h), fun h => (nomatch h),
                      fun _ => ⟨hr, htx, hgood⟩⟩, hidx, fun h => absurd rfl h⟩
      · have hstep : (step p (Op.doActivate ld g)).2 = p := by
          simp [step, activate, hs]
        rw [hstep]
        exact ⟨⟨hns, hreg, hact⟩, le_refl _, fun h => absurd rfl h⟩
  | load b => simp [Op.isLoad] at hl

/-- Helper: the data invariant holds after any load-free run with nonempty
remote answers. -/
theorem run_inv (ops : List Op) :
    ∀ p : NameRegistration, Inv p → (∀ op ∈ ops, GoodOp op ∧ op.isLoad = false) →
    Inv (run p ops) := by
  induction ops with
  | nil => intro p hp _; exact hp
  | cons op rest ih =>
      intro p hp hops
      obtain ⟨hg, hl⟩ := hops op (by simp)
      have hrest : ∀ o ∈ rest, GoodOp o ∧ o.isLoad = false :=
        fun o ho => hops o (by simp [ho])
      exact ih (step p op).2 (step_inv p op hp hg hl).1 hrest

/-- Helper: a fresh object satisfies the data invariant. -/
theorem freshNR_inv : Inv freshNR := by
  refine ⟨fun _ => ⟨rfl, rfl, rfl, rfl⟩, fun h => ?_, fun h => ?_⟩ <;> cases h

/-- C5 counterexample: the claim fails as stated because decoding the
honestly produced encoding of an ACTIVATED process (reached by a
successful registerName followed by a successful activate) yields a
reachable ACTIVATED object whose rand and tx members are empty — the
serialized form of an activated process does not carry the reservation
data, so "reservationSecret/reservationTxId nonempty iff state is RESERVED
or ACTIVATED" is violated. -/
theorem C5_counterexample :
    encodeNameRegistration
        (run freshNR
          [Op.register ⟨"d/test", false, false⟩ (fun _ => .ok ("t1", "r1")),
           Op.doActivate ledger12 (fun _ => .ok "ta")]) =
      .ok { type := "NameRegistration", version := 1, name := "d/test",
            stateTag := "activated", txActivation := "ta" } ∧
    (run freshNR
        [Op.load { type := "NameRegistration", version := 1, name := "d/test",
                   stateTag := "activated", txActivation := "ta" }]).state = .ACTIVATED ∧
    (run freshNR
        [Op.load { type := "NameRegistration", version := 1, name := "d/test",
                   stateTag := "activated", txActivation := "ta" }]).rand = "" ∧
    (run freshNR
        [Op.load { type := "NameRegistration", version := 1, name := "d/test",
                   stateTag := "activated", txActivation := "ta" }]).tx = "" :=
  ⟨rfl, rfl, rfl, rfl⟩

/-- C5 amended: along every run from a fresh object built from
registerName, setValue and activate operations (stream decode excluded)
whose successful remote answers are nonempty identifier strings, the
reservation data rand/tx is nonempty exactly in the REGISTERED and
ACTIVATED states, the activation txid is nonempty exactly in ACTIVATED,
any further such operation never decreases the state in the order
NOT_STARTED < REGISTERED < ACTIVATED, and it can change the value member
only from the REGISTERED state. -/
theorem C5_invariants (ops : List Op)
    (hops : ∀ op ∈ ops, GoodOp op ∧ op.isLoad = false) :
    (((run freshNR ops).rand ≠ "" ∧ (run freshNR ops).tx ≠ "") ↔
      ((run freshNR ops).state = .REGISTERED ∨ (run freshNR ops).state = .ACTIVATED)) ∧
    ((run freshNR ops).txActivation ≠ "" ↔ (run freshNR ops).state = .ACTIVATED) ∧
    (∀ op : Op, GoodOp op → op.isLoad = false →
      (run freshNR ops).state.idx ≤ (step (run freshNR ops) op).2.state.idx ∧
      ((step (run freshNR ops) op).2.value ≠ (run freshNR ops).value →
        (run freshNR ops).state = .REGISTERED)) := by
  have hinv := run_inv ops freshNR freshNR_inv hops
  obtain ⟨hns, hreg, hact⟩ := hinv
  refine ⟨?_, ?_, ?_⟩
  · cases hs : (run freshNR ops).state with
    | NOT_STARTED =>
        obtain ⟨-, hr, htx, -⟩ := hns hs
        simp [hr, htx]
    | REGISTERED =>
        obtain ⟨hr, htx, -⟩ := hreg hs
        simp [hr, htx]
    | ACTIVATED =>
        obtain ⟨hr, htx, -⟩ := hact hs
        simp [hr, htx]
  · cases hs : (run freshNR ops).state with
    | NOT_STARTED =>
        obtain ⟨-, -, -, hta⟩ := hns hs
        simp [hta]
    | REGISTERED =>
        obtain ⟨-, -, hta⟩ := hreg hs
        simp [hta]
    | ACTIVATED =>
        obtain ⟨-, -, hta⟩ := hact hs
        simp [hta]
  · intro op hg hl
    exact (step_inv (run freshNR ops) op ⟨hns, hreg, hact⟩ hg hl).2

/-- Witness for C5 amended: the one-operation run that successfully
registers "d/test" with reserve answer ("t1", "r1") instantiates every
hypothesis, and the invariants hold at its end state. -/
theorem C5_invariants_witness :
    (((run freshNR [Op.register ⟨"d/test", false, false⟩ (fun _ => .ok ("t1", "r1"))]).rand ≠ "" ∧
      (run freshNR [Op.register ⟨"d/test", false, false⟩ (fun _ => .ok ("t1", "r1"))]).tx ≠ "") ↔
      ((run freshNR [Op.register ⟨"d/test", false, false⟩ (fun _ => .ok ("t1", "r1"))]).state = .REGISTERED ∨
       (run freshNR [Op.register ⟨"d/test", false, false⟩ (fun _ => .ok ("t1", "r1"))]).state = .ACTIVATED)) ∧
    ((run freshNR [Op.register ⟨"d/test", false, false⟩ (fun _ => .ok ("t1", "r1"))]).txActivation ≠ "" ↔
      (run freshNR [Op.register ⟨"d/test", false, false⟩ (fun _ => .ok ("t1", "r1"))]).state = .ACTIVATED) ∧
    (∀ op : Op, GoodOp op → op.isLoad = false →
      (run freshNR [Op.register ⟨"d/test", false, false⟩ (fun _ => .ok ("t1", "r1"))]).state.idx ≤
        (step (run freshNR [Op.register ⟨"d/test", false, false⟩ (fun _ => .ok ("t1", "r1"))]) op).2.state.idx ∧
      ((step (run freshNR [Op.register ⟨"d/test", false, false⟩ (fun _ => .ok ("t1", "r1"))]) op).2.value ≠
          (run freshNR [Op.register ⟨"d/test", false, false⟩ (fun _ => .ok ("t1", "r1"))]).value →
        (run freshNR [Op.register ⟨"d/test", false, false⟩ (fun _ => .ok ("t1", "r1"))]).state = .REGISTERED)) :=
  C5_invariants [Op.register ⟨"d/test", false, false⟩ (fun _ => .ok ("t1", "r1"))]
    (by
      intro op hop
      simp only [List.mem_singleton] at hop
      subst hop
      refine ⟨?_, rfl⟩
      intro s t r h
      obtain ⟨h1, h2⟩ := Prod.mk.injEq .. ▸ Except.ok.inj h
      constructor
      · rw [← h1]; simp
      · rw [← h2]; simp)

/-! ### Serialization -/

/-- Helper: encoding a REGISTERED or ACTIVATED process and decoding the
result into any target process returns normally and produces an object
observably equal to the encoded one. -/
theorem encode_decode_obsEquiv (p q : NameRegistration)
    (hp : p.state ≠ .NOT_STARTED) :
    ∃ b, encodeNameRegistration p = .ok b ∧
      (decodeNameRegistration b q).1 = .ok () ∧
      obsEquiv (decodeNameRegistration b q).2 p := by
  cases hs : p.state with
  | NOT_STARTED => exact absurd hs hp
  | REGISTERED =>
      refine ⟨{ type := "NameRegistration", version := 1, name := p.name,
                stateTag := "registered", value := p.value, rand := p.rand,
                tx := p.tx }, ?_, ?_, ?_⟩
      · simp [encodeNameRegistration, hs]
      · simp [decodeNameRegistration]
      · refine ⟨?_, ?_, ?_, ?_⟩ <;> simp [decodeNameRegistration, hs]
  | ACTIVATED =>
      refine ⟨{ type := "NameRegistration", version := 1, name := p.name,
                stateTag := "activated", txActivation := p.txActivation }, ?_, ?_, ?_⟩
      · simp [encodeNameRegistration, hs]
      · simp [decodeNameRegistration]
      · refine ⟨?_, ?_, ?_, ?_⟩ <;> simp [decodeNameRegistration, hs]

/-- C6: encoding a process whose state is REGISTERED or ACTIVATED and
decoding the blob into a fresh NOT_STARTED process returns normally and
yields a process with the same name and state, the same value/rand/tx
when REGISTERED and the same txActivation when ACTIVATED. -/
theorem C6_roundtrip_single (p : NameRegistration)
    (hp : p.state = .REGISTERED ∨ p.state = .ACTIVATED) :
    ∃ b, encodeNameRegistration p = .ok b ∧
      (decodeNameRegistration b freshNR).1 = .ok () ∧
      obsEquiv (decodeNameRegistration b freshNR).2 p := by
  refine encode_decode_obsEquiv p freshNR ?_
  rcases hp with h | h <;> rw [h] <;> intro hc <;> cases hc

/-- Witness for C6: the round trip through serialization at the concrete
REGISTERED process `pREG`. -/
theorem C6_roundtrip_witness :
    ∃ b, encodeNameRegistration pREG = .ok b ∧
      (decodeNameRegistration b freshNR).1 = .ok () ∧
      obsEquiv (decodeNameRegistration b freshNR).2 pREG :=
  C6_roundtrip_single pREG (Or.inl rfl)

/-- Helper: encoding a list of non-NOT_STARTED entries succeeds, and
decoding the produced element blobs into fresh objects yields a list that
is pointwise observably equal to the original. -/
theorem encode_decode_elements (l : List NameRegistration)
    (hl : ∀ p ∈ l, p.state ≠ State.NOT_STARTED) :
    ∃ bs, encodeElements l = .ok bs ∧
      ∃ qs, decodeElements bs = .ok qs ∧ List.Forall₂ obsEquiv qs l := by
  induction l with
  | nil => exact ⟨[], rfl, [], rfl, List.Forall₂.nil⟩
  | cons p rest ih =>
      obtain ⟨b, hb, hdec, hobs⟩ :=
        encode_decode_obsEquiv p freshNR (hl p (by simp))
      obtain ⟨bs, hbs, qs, hqs, hall⟩ := ih (fun q hq => hl q (by simp [hq]))
      rcases hd : decodeNameRegistration b freshNR with ⟨o, q⟩
      rw [hd] at hdec hobs
      simp only at hdec hobs
      subst hdec
      refine ⟨b :: bs, ?_, q :: qs, ?_, ?_⟩
      · simp [encodeElements, hb, hbs]
      · simp [decodeElements, hd, hqs]
      · exact List.Forall₂.cons hobs hall

/-- C7: encoding a manager whose entries are all REGISTERED or ACTIVATED
and decoding the result into a manager with arbitrary prior contents
succeeds and produces exactly the original entry list — pointwise
observably equal, in the same order — independent of (and discarding) the
target's pre-existing entries. -/
theorem C7_roundtrip_manager (m m2 : RegistrationManager) (bl : MgrBlob)
    (hm : ∀ p ∈ m.names, p.state ≠ State.NOT_STARTED)
    (henc : encodeRegistrationManager m = .ok bl) :
    ∃ qs, decodeRegistrationManager bl m2 = .ok { names := qs } ∧
      List.Forall₂ obsEquiv qs m.names := by
  obtain ⟨bs, hbs, qs, hqs, hall⟩ := encode_decode_elements m.names hm
  have hbl : bl = { type := "RegistrationManager", version := 1, elements := bs } := by
    unfold encodeRegistrationManager at henc
    rw [hbs] at henc
    exact (Except.ok.inj henc).symm
  refine ⟨qs, ?_, hall⟩
  rw [hbl]
  simp [decodeRegistrationManager, hqs]

/-- Witness for C7: the round trip of a one-entry manager holding `pREG`,
decoded into a manager that previously held the unrelated entry `pACT`. -/
theorem C7_roundtrip_witness :
    ∃ qs, decodeRegistrationManager
        { type := "RegistrationManager", version := 1,
          elements := [{ type := "NameRegistration", version := 1, name := "d/x",
                         stateTag := "registered", value := "v", rand := "r1",
                         tx := "t1" }] }
        { names := [pACT] } = .ok { names := qs } ∧
      List.Forall₂ obsEquiv qs ({ names := [pREG] } : RegistrationManager).names :=
  C7_roundtrip_manager { names := [pREG] } { names := [pACT] } _
    (by
      intro p hp
      simp only [List.mem_singleton] at hp
      subst hp
      intro h
      cases h)
    rfl

/-- C8: serialization of a single process is defined exactly for the
REGISTERED and ACTIVATED states: encoding a NOT_STARTED process fails with
InvalidStateError; decoding fails with FormatError when the type tag or
version is wrong (in particular for a version-2 blob) and when the state
discriminator is neither "registered" nor "activated". -/
theorem C8_serialization_errors :
    (∀ p : NameRegistration, p.state = .NOT_STARTED →
      encodeNameRegistration p = .error .invalidState) ∧
    (∀ (b : RegBlob) (q : NameRegistration),
      ¬(b.type = "NameRegistration" ∧ b.version = 1) →
      (decodeNameRegistration b q).1 = .error .format) ∧
    ((decodeNameRegistration
        { type := "NameRegistration", version := 2, name := "d/x",
          stateTag := "registered", value := "v", rand := "r1", tx := "t1" }
        freshNR).1 = .error .format) ∧
    (∀ (b : RegBlob) (q : NameRegistration),
      b.type = "NameRegistration" → b.version = 1 →
      b.stateTag ≠ "registered" → b.stateTag ≠ "activated" →
      (decodeNameRegistration b q).1 = .error .format) := by
  refine ⟨?_, ?_, ?_, ?_⟩
  · intro p hp
    simp [encodeNameRegistration, hp]
  · intro b q hb
    simp [decodeNameRegistration, hb]
  · rfl
  · intro b q h1 h2 h3 h4
    simp [decodeNameRegistration, h1, h2, h3, h4]

/-- Witness for C8: a fresh process cannot be encoded, and the version-2
blob of the theorem is rejected when decoded into a fresh process. -/
theorem C8_serialization_witness :
    encodeNameRegistration freshNR = .error .invalidState ∧
    (decodeNameRegistration
        { type := "NameRegistration", version := 2, name := "d/x",
          stateTag := "registered", value := "v", rand := "r1", tx := "t1" }
        freshNR).1 = .error .format ∧
    (decodeNameRegistration
        { type := "NameRegistration", version := 1, name := "d/x",
          stateTag := "halfway", value := "v", rand := "r1", tx := "t1" }
        freshNR).1 = .error .format :=
  ⟨C8_serialization_errors.1 freshNR rfl,
   C8_serialization_errors.2.2.1,
   C8_serialization_errors.2.2.2
     { type := "NameRegistration", version := 1, name := "d/x",
       stateTag := "halfway", value := "v", rand := "r1", tx := "t1" }
     freshNR rfl rfl (by decide) (by decide)⟩

/-! ### RegistrationManager.cleanUp -/

/-- A ledger snapshot for the cleanUp scenario: the activation transaction
"t1" of `pACT` is confirmed (3 confirmations); `pREG` is still REGISTERED
and unaffected by cleanUp regardless of confirmations. -/
def ledgerC9 : String → Option Int := fun s => if s = "t1" then some 3 else none

/-- C9: evaluation of `RegistrationManager::cleanUp` as implemented in
NameRegistration.cpp on a concrete two-entry manager.  It erases exactly
the finished entry `pACT`, keeps `pREG` in place, and a second run removes
nothing further — but the implementation is `void`: it computes and
returns no count of the purged entries, although the class declaration
promises `unsigned cleanUp ()` returning the number purged and the nmreg
utility consumes that return value. -/
theorem C9_cleanUp_eval :
    cleanUp { names := [pACT, pREG] } ledgerC9 = .ok { names := [pREG] } ∧
    cleanUp { names := [pREG] } ledgerC9 = .ok { names := [pREG] } :=
  ⟨rfl, rfl⟩

end Nmcrpc
